import Mathlib

/-!
Shallow embedding of the go-anyway/framework-errors package: the status-code
registry (codes.go), the statusError value and the gRPC status codec
(errors.go), and the withStatus wrapper with its Option mechanism
(options/wrapper file).

Go `map[string]string` values are modelled as association lists with unique
keys built by `mapInsert`; a possibly-nil Go map is `Option StrMap`, with
`none` standing for the nil map.  Go `int32` is modelled as `Int`: every code
handled here lies well inside the int32 range and the package performs no
arithmetic on codes, so no overflow reduction is needed.
-/

/-- Association-list model of a Go `map[string]string`. -/
abbrev StrMap := List (String × String)

/-- Go map assignment `m[k] = v`: overwrite the entry for `k` if present,
otherwise append a new one. -/
def mapInsert (m : StrMap) (k v : String) : StrMap :=
  if m.any (fun p => p.1 == k) then
    m.map (fun p => if p.1 == k then (k, v) else p)
  else
    m ++ [(k, v)]

/-- Go map read `m[k]` (the value together with the `ok` flag). -/
def mapGet (m : StrMap) (k : String) : Option String :=
  (m.find? (fun p => p.1 == k)).map (fun p => p.2)

/-- CodeDefinition from codes.go: default message and stability flag of a
status code. -/
structure CodeDefinition where
  message : String
  isAffectStability : Bool
deriving DecidableEq, Repr

def CodeSuccess : Int := 200
def CodeInvalidParam : Int := 1001
def CodeUnauthorized : Int := 1002
def CodeForbidden : Int := 1003
def CodeNotFound : Int := 1004
def CodeAlreadyExists : Int := 1005
def CodeInternalError : Int := 1006
def CodeRequestTimeout : Int := 1007
def CodeUserNotFound : Int := 2001
def CodeUserAlreadyExist : Int := 2002
def CodeRateLimitExceeded : Int := 2003
def CodeTokenExpired : Int := 2004

/-- CodeDefinitions from codes.go, as an association list standing for the
Go map literal. -/
def CodeDefinitions : List (Int × CodeDefinition) :=
  [ (CodeSuccess, ⟨"success", false⟩),
    (CodeInvalidParam, ⟨"参数无效", false⟩),
    (CodeUnauthorized, ⟨"未授权", false⟩),
    (CodeForbidden, ⟨"禁止访问", false⟩),
    (CodeNotFound, ⟨"资源未找到", false⟩),
    (CodeAlreadyExists, ⟨"资源已存在", false⟩),
    (CodeInternalError, ⟨"内部服务器错误", true⟩),
    (CodeUserNotFound, ⟨"用户不存在", false⟩),
    (CodeUserAlreadyExist, ⟨"用户已存在", false⟩),
    (CodeRateLimitExceeded, ⟨"请求过于频繁", false⟩),
    (CodeTokenExpired, ⟨"认证令牌已过期", false⟩),
    (CodeRequestTimeout, ⟨"请求超时", false⟩) ]

/-- GetCodeDefinition from errors.go: registry lookup with the conservative
default `⟨"未知错误", true⟩` for unregistered codes. -/
def GetCodeDefinition (code : Int) : CodeDefinition :=
  match CodeDefinitions.find? (fun p => p.1 == code) with
  | some p => p.2
  | none => ⟨"未知错误", true⟩

/-- GetMessage from errors.go: a non-empty custom message wins, otherwise the
registry default for the code. -/
def GetMessage (code : Int) (customMessage : String) : String :=
  if customMessage ≠ "" then customMessage else (GetCodeDefinition code).message

/-- Extension from errors.go.  `extra` is a possibly-nil Go map. -/
structure Extension where
  isAffectStability : Bool
  extra : Option StrMap
deriving DecidableEq, Repr

/-- statusError from errors.go: the core status-error value. -/
structure statusError where
  statusCode : Int
  message : String
  ext : Extension
deriving DecidableEq, Repr

/-- Method statusError.Code. -/
def statusError.Code (e : statusError) : Int := e.statusCode

/-- Method statusError.Msg. -/
def statusError.Msg (e : statusError) : String := e.message

/-- Method statusError.Error: returns the message only. -/
def statusError.ErrorStr (e : statusError) : String := e.message

/-- Method statusError.IsAffectStability. -/
def statusError.IsAffectStability (e : statusError) : Bool := e.ext.isAffectStability

/-- Method statusError.Extra: when the stored map is nil the method returns a
freshly made empty map (`some []`), never the nil map (`none`). -/
def statusError.Extra (e : statusError) : Option StrMap :=
  match e.ext.extra with
  | none => some []
  | some m => some m

/-- Dynamic shape of the `data interface\x7b\x7d` argument of NewStatusError.
A Go `map[string]interface\x7b\x7d` is modelled with its values already
rendered through `fmt.Sprintf` percent-v, which is how the code consumes
them. -/
inductive GoData where
  | null
  | strMap (m : Option StrMap)
  | anyMap (m : StrMap)
  | otherVal
deriving DecidableEq, Repr

/-- NewStatusError from errors.go.  The `strMap` branch stores the caller's
map itself (possibly nil); the `anyMap` branch copies stringified entries
into the fresh map; any other data (including nil) leaves the fresh empty
map. -/
def NewStatusError (code : Int) (message : String) (data : GoData) : statusError :=
  let message := if message = "" then GetMessage code "" else message
  let def' := GetCodeDefinition code
  let extra : Option StrMap :=
    match data with
    | .null => some []
    | .anyMap m => some (m.foldl (fun a p => mapInsert a p.1 p.2) [])
    | .strMap m => m
    | .otherVal => some []
  ⟨code, message, ⟨def'.isAffectStability, extra⟩⟩

/-- gRPC transport status codes used by the codec (google.golang.org/grpc/codes).
Codes the codec never names explicitly are summarised by representatives such
as `unavailable`; the codec treats all of them through its default branches. -/
inductive GRPCCode where
  | ok
  | invalidArgument
  | unauthenticated
  | permissionDenied
  | notFound
  | alreadyExists
  | internal
  | unavailable
  | deadlineExceeded
  | unknownCode
deriving DecidableEq, Repr

/-- A structpb value as it comes back from `Struct.AsMap`: business codes are
numbers (float64 — exact on the int32 range the package uses), everything
else in this codec is a string. -/
inductive PbValue where
  | num (n : Int)
  | str (s : String)
deriving DecidableEq, Repr

/-- A structpb.Struct, as an association list of fields. -/
abbrev PbStruct := List (String × PbValue)

/-- One entry of `status.Details()`: either an `anypb.Any` that unmarshals to
a structpb.Struct, or any other payload, which FromGRPCStatus skips. -/
inductive Detail where
  | pb (s : PbStruct)
  | undecodable
deriving DecidableEq, Repr

/-- The gRPC status envelope: transport code, message, ordered details. -/
structure GRPCStatus where
  code : GRPCCode
  message : String
  details : List Detail
deriving DecidableEq, Repr

/-- Field lookup in a structpb.Struct map. -/
def pbLookup (s : PbStruct) (k : String) : Option PbValue :=
  (s.find? (fun p => p.1 == k)).map (fun p => p.2)

/-- Rendering of an `AsMap` value through `fmt.Sprintf` percent-v.  On the
integer-valued range this codec produces, the float64 rendering coincides
with decimal notation. -/
def pbRender : PbValue → String
  | .num n => toString n
  | .str s => s

/-- The business-to-transport code table from ToGRPCStatus (the switch on
`err.Code()`); every unlisted code collapses to `internal`. -/
def codeToGRPCCode (c : Int) : GRPCCode :=
  if c = CodeInvalidParam then .invalidArgument
  else if c = CodeUnauthorized then .unauthenticated
  else if c = CodeForbidden then .permissionDenied
  else if c = CodeNotFound then .notFound
  else if c = CodeAlreadyExists then .alreadyExists
  else .internal

/-- ToGRPCStatus from errors.go, instantiated (as in every call site of the
claims) at the concrete `statusError` implementation of the StatusError
interface; `none` is the nil interface value.  `structpb.NewStruct` and
`anypb.New` always succeed on the string/number maps built here, so both
details are attached whenever the code attempts to. -/
def ToGRPCStatus : Option statusError → GRPCStatus
  | none => ⟨.internal, "unknown error", []⟩
  | some e =>
    let grpcCode := codeToGRPCCode e.Code
    let extra : StrMap := e.Extra.getD []
    let detail1 : List Detail :=
      if 0 < extra.length then
        [Detail.pb (extra.map (fun p => (p.1, PbValue.str p.2)))]
      else []
    let errorInfo : PbStruct :=
      [("business_code", PbValue.num e.Code), ("business_msg", PbValue.str e.Msg)]
    ⟨grpcCode, e.Msg, detail1 ++ [Detail.pb errorInfo]⟩

/-- One iteration of the detail loop of FromGRPCStatus over the accumulator
`(code, message, extraData)`.  A struct whose `business_code` field is a
number overrides code and (when `business_msg` is a string) message;
any other struct is merged into the extra data; undecodable details are
skipped. -/
def scanDetail (acc : Int × String × Option StrMap) : Detail → Int × String × Option StrMap
  | .undecodable => acc
  | .pb s =>
    match pbLookup s "business_code" with
    | some (.num n) =>
      let message :=
        match pbLookup s "business_msg" with
        | some (.str m) => m
        | _ => acc.2.1
      (n, message, acc.2.2)
    | _ =>
      let ed := acc.2.2.getD []
      (acc.1, acc.2.1, some (s.foldl (fun a p => mapInsert a p.1 (pbRender p.2)) ed))

/-- The whole detail loop of FromGRPCStatus, starting from the defaults
`(CodeInternalError, st.Message(), nil)`. -/
def scanDetails (st : GRPCStatus) : Int × String × Option StrMap :=
  st.details.foldl scanDetail (CodeInternalError, st.message, none)

/-- The transport-to-business inverse table from FromGRPCStatus (the switch
on `st.Code()`); every unlisted transport code yields `CodeInternalError`. -/
def grpcCodeToCode : GRPCCode → Int
  | .invalidArgument => CodeInvalidParam
  | .unauthenticated => CodeUnauthorized
  | .permissionDenied => CodeForbidden
  | .notFound => CodeNotFound
  | .alreadyExists => CodeAlreadyExists
  | _ => CodeInternalError

/-- FromGRPCStatus from errors.go.  The transport-code inverse table is
consulted exactly when the scanned business code still equals
`CodeInternalError`.  The final `NewStatusError` call receives the
possibly-nil `extraData` map boxed in a non-nil interface value, which is
the `strMap` shape of `GoData`. -/
def FromGRPCStatus (st : GRPCStatus) : statusError :=
  let r := scanDetails st
  let code := if r.1 = CodeInternalError then grpcCodeToCode st.code else r.1
  NewStatusError code r.2.1 (GoData.strMap r.2.2)

/-- Universe of Go error values the wrapper file manipulates.  `plain` is an
arbitrary error that does not implement StatusError (with an optional
Unwrap); `statusE` is a `*statusError`; `withS` is a `*withStatus`; `custom`
is any foreign implementation of the StatusError interface (with an optional
Unwrap). -/
inductive ErrVal where
  | plain (msg : String) (wrapped : Option ErrVal)
  | statusE (s : statusError)
  | withS (status : statusError) (stack : String) (cause : Option ErrVal)
  | custom (code : Int) (msg : String) (aff : Bool) (extra : Option StrMap)
      (wrapped : Option ErrVal)
deriving Repr

/-- Semantics of `errors.As(err, &ws)` for the target type `*withStatus`:
walk the unwrap chain until a `withS` node is found, returning its fields
(the found pointer).  `statusE` nodes have no Unwrap method, so the walk
stops there. -/
def findWithStatus : ErrVal → Option (statusError × String × Option ErrVal)
  | .withS s st c => some (s, st, c)
  | .custom _ _ _ _ (some w) => findWithStatus w
  | .plain _ (some w) => findWithStatus w
  | _ => none

/-- Semantics of `errors.As(err, &se)` for the target type `*statusError`:
walk the unwrap chain until a `statusE` node is found. -/
def findStatusError : ErrVal → Option statusError
  | .statusE s => some s
  | .withS _ _ (some c) => findStatusError c
  | .custom _ _ _ _ (some w) => findStatusError w
  | .plain _ (some w) => findStatusError w
  | _ => none

/-- Whether the value implements the StatusError interface. -/
def ErrVal.isStatusError : ErrVal → Bool
  | .plain _ _ => false
  | _ => true

/-- Interface dispatch of `Code()`.  `plain` values do not implement
StatusError and are never queried; they answer a junk 0. -/
def ErrVal.Code : ErrVal → Int
  | .statusE s => s.Code
  | .withS s _ _ => s.statusCode
  | .custom c _ _ _ _ => c
  | .plain _ _ => 0

/-- Interface dispatch of `Msg()`. -/
def ErrVal.Msg : ErrVal → String
  | .statusE s => s.Msg
  | .withS s _ _ => s.message
  | .custom _ m _ _ _ => m
  | .plain _ _ => ""

/-- Interface dispatch of `IsAffectStability()`. -/
def ErrVal.IsAffectStability : ErrVal → Bool
  | .statusE s => s.IsAffectStability
  | .withS s _ _ => s.ext.isAffectStability
  | .custom _ _ a _ _ => a
  | .plain _ _ => false

/-- Method withStatus.Extra on the wrapper's fields: nil stored metadata
short-circuits to a fresh empty map; otherwise the entries are copied into a
fresh map and, when the stack string is non-empty, a "stack" entry is
assigned on top. -/
def withStatusExtra (status : statusError) (stack : String) : Option StrMap :=
  match status.ext.extra with
  | none => some []
  | some m =>
    let copy := m.foldl (fun a p => mapInsert a p.1 p.2) []
    some (if stack = "" then copy else mapInsert copy "stack" stack)

/-- Interface dispatch of `Extra()`; the result is a Go map value, `none`
being the nil map a foreign implementation may return. -/
def ErrVal.ExtraMap : ErrVal → Option StrMap
  | .statusE s => s.Extra
  | .withS s st _ => withStatusExtra s st
  | .custom _ _ _ x _ => x
  | .plain _ _ => none

/-- Method withStatus.Unwrap (returns the cause; `none` on other shapes,
whose Unwrap either does not exist or is irrelevant to the claims). -/
def ErrVal.UnwrapCause : ErrVal → Option ErrVal
  | .withS _ _ c => c
  | _ => none

/-- Method withStatus.Cause — textually distinct from Unwrap in the source,
with the same body. -/
def ErrVal.CauseOf : ErrVal → Option ErrVal
  | .withS _ _ c => c
  | _ => none

/-- WithStack from the wrapper file.  `stack` is the string captureStack
returns at the call site (an arbitrary runtime value, passed as a
parameter).  Branches in source order: nil in, already-wrapped (the found
`*withStatus` pointer is returned as is), bare `*statusError`, and the
duck-typed reconstruction that stores the original error as cause. -/
def WithStack (stack : String) : Option ErrVal → Option ErrVal
  | none => none
  | some err =>
    match findWithStatus err with
    | some (s, st, c) => some (.withS s st c)
    | none =>
      match findStatusError err with
      | some se => some (.withS se stack none)
      | none =>
        some (.withS ⟨err.Code, err.Msg, ⟨err.IsAffectStability, err.ExtraMap⟩⟩
          stack (some err))

/-- WrapWithStatus from the wrapper file.  `NewStatusError` always returns a
`*statusError`, so `errors.As(statusErr, &ws)` fails, `errors.As(statusErr,
&se)` binds `se` to it, and the fallback reconstruction branch is dead
code. -/
def WrapWithStatus (stack : String) (err : Option ErrVal) (code : Int)
    (message : String) (data : GoData) : Option ErrVal :=
  match err with
  | none => none
  | some e => some (.withS (NewStatusError code message data) stack (some e))

/-- The Option functional-option type of the wrapper file (named `Option` in
Go; renamed here because Lean reserves that name).  `param` is Param,
`extra` is Extra. -/
inductive ErrOption where
  | param (k v : String)
  | extra (k v : String)
deriving DecidableEq, Repr

/-- If `pat` is a leading segment of `l`, the remainder of `l` after it. -/
def stripLead (pat l : List Char) : Option (List Char) :=
  match pat, l with
  | [], rest => some rest
  | _ :: _, [] => none
  | p :: ps, c :: cs => if p = c then stripLead ps cs else none

/-- Replacement of every non-overlapping occurrence of `pat`, scanning left
to right, as Go strings.ReplaceAll does.  The fuel argument only bounds the
recursion depth; any fuel at least the length of the input yields the full
scan, and `goReplaceAll` below always supplies enough. -/
def replaceChars (pat rep : List Char) : Nat → List Char → List Char
  | _, [] => []
  | 0, l => l
  | Nat.succ fuel, c :: cs =>
    match stripLead pat (c :: cs) with
    | some rest => rep ++ replaceChars pat rep fuel rest
    | none => c :: replaceChars pat rep fuel cs

/-- Go strings.ReplaceAll.  Matching on characters coincides with Go's
byte-level matching because valid UTF-8 is self-synchronizing, and the
patterns used here (a braced placeholder name) are never empty. -/
def goReplaceAll (s pat rep : String) : String :=
  ⟨replaceChars pat.data rep.data s.data.length s.data⟩

/-- Application of one Option to a `*withStatus` (its three fields).  The
nil-receiver guards of Param and Extra never fire on the values built here.
Param rewrites every occurrence of the placeholder; Extra assigns into the
metadata map, creating it when nil. -/
def applyOption (ws : statusError × String × Option ErrVal) :
    ErrOption → statusError × String × Option ErrVal
  | .param k v =>
    ({ ws.1 with message := goReplaceAll ws.1.message ("\x7b" ++ k ++ "\x7d") v },
      ws.2.1, ws.2.2)
  | .extra k v =>
    ({ ws.1 with
        ext := { ws.1.ext with extra := some (mapInsert (ws.1.ext.extra.getD []) k v) } },
      ws.2.1, ws.2.2)

/-- NewWithStatus from the wrapper file: fresh statusError (message fallback,
registry stability flag, fresh empty metadata), fresh stack, no cause, then
the Options applied in order. -/
def NewWithStatus (stack : String) (code : Int) (message : String)
    (opts : List ErrOption) : ErrVal :=
  let message := if message = "" then GetMessage code "" else message
  let def' := GetCodeDefinition code
  let se : statusError := ⟨code, message, ⟨def'.isAffectStability, some []⟩⟩
  let ws := opts.foldl applyOption (se, stack, none)
  .withS ws.1 ws.2.1 ws.2.2

/-- WrapWithStatusOptions from the wrapper file: like NewWithStatus but
nil-in/nil-out on the cause, which is stored in the wrapper. -/
def WrapWithStatusOptions (stack : String) (err : Option ErrVal) (code : Int)
    (message : String) (opts : List ErrOption) : Option ErrVal :=
  match err with
  | none => none
  | some e =>
    let message := if message = "" then GetMessage code "" else message
    let def' := GetCodeDefinition code
    let se : statusError := ⟨code, message, ⟨def'.isAffectStability, some []⟩⟩
    let ws := opts.foldl applyOption (se, stack, some e)
    some (.withS ws.1 ws.2.1 ws.2.2)

/-- Heap of Go `map[string]string` values, for the aliasing statements about
withStatus.Extra: a map reference is an index into the store. -/
structure Heap where
  store : List StrMap
deriving DecidableEq, Repr

/-- Dereference a map reference (out-of-range never occurs under the validity
hypotheses used below). -/
def Heap.get (h : Heap) (r : Nat) : StrMap :=
  h.store[r]?.getD []

/-- In-place mutation of the map a reference points to. -/
def Heap.set (h : Heap) (r : Nat) (m : StrMap) : Heap :=
  ⟨h.store.set r m⟩

/-- Allocation of a fresh map (`make(map[string]string)` plus its fills). -/
def Heap.alloc (h : Heap) (m : StrMap) : Heap × Nat :=
  (⟨h.store ++ [m]⟩, h.store.length)

/-- The fields of a `*withStatus` that its Extra method reads, with the
stored metadata as a heap reference (`none` = nil map). -/
structure withStatusH where
  extraRef : Option Nat
  stack : String
deriving DecidableEq, Repr

/-- Method withStatus.Extra in the heap model: both branches allocate a fresh
map and return a reference to it; the non-nil branch copies the entries of
the stored map and then assigns the "stack" entry when the stack is
non-empty. -/
def withStatusExtraH (h : Heap) (w : withStatusH) : Heap × Nat :=
  match w.extraRef with
  | none => h.alloc []
  | some r =>
    let m := h.get r
    let copy := m.foldl (fun a p => mapInsert a p.1 p.2) []
    h.alloc (if w.stack = "" then copy else mapInsert copy "stack" w.stack)

/-- Overwriting insertion makes the inserted key readable with its new
value, whatever the map held before. -/
theorem mapGet_mapInsert_self (m : StrMap) (k v : String) :
    mapGet (mapInsert m k v) k = some v := by
  unfold mapInsert mapGet
  cases h : m.any (fun p => p.1 == k) with
  | true =>
    simp only [h, if_true]
    induction m with
    | nil => simp at h
    | cons p t ih =>
      by_cases hp : (p.1 == k) = true
      · simp [List.find?, hp]
      · simp only [List.any_cons, hp, Bool.false_or] at h
        simpa [List.find?, hp] using ih h
  | false =>
    simp only [h, Bool.false_eq_true, if_false]
    rw [List.find?_append]
    have hnone : m.find? (fun p => p.1 == k) = none := by
      rw [List.find?_eq_none]
      intro x hx
      have hall := List.any_eq_false.mp h x hx
      simpa using hall
    simp [hnone, List.find?]

/-- C4 counterexample: the code 0 is not registered, yet the sentinel
definition GetCodeDefinition returns does not carry the literal message
"unknown error" — its message is the Chinese "未知错误". -/
theorem C4_counterexample :
    CodeDefinitions.find? (fun p => p.1 == 0) = none ∧
    GetCodeDefinition 0 ≠ ⟨"unknown error", true⟩ := by
  constructor
  · decide
  · decide

/-- C4 (amended): for every code not present in the registry,
GetCodeDefinition returns exactly the sentinel definition with message
"未知错误" (Chinese for "unknown error") and isAffectStability true. -/
theorem C4_unknown_sentinel (c : Int)
    (h : CodeDefinitions.find? (fun p => p.1 == c) = none) :
    GetCodeDefinition c = ⟨"未知错误", true⟩ := by
  unfold GetCodeDefinition
  rw [h]

/-- C4 witness: the amended theorem applied at the unregistered code 0. -/
theorem C4_witness :
    CodeDefinitions.find? (fun p => p.1 == 0) = none ∧
    GetCodeDefinition 0 = ⟨"未知错误", true⟩ :=
  ⟨by decide, C4_unknown_sentinel 0 (by decide)⟩

/-- C7: WithStack of the nil error is nil, and WrapWithStatus of a nil cause
is nil, for every captured stack, code, message and data. -/
theorem C7_nil_in_nil_out (stk : String) (c : Int) (msg : String) (data : GoData) :
    WithStack stk none = none ∧ WrapWithStatus stk none c msg data = none :=
  ⟨rfl, rfl⟩

/-- C9: NewStatusError with an empty message falls back to the registered
default for not-found, and the Extra method of every constructed status
error returns a non-nil map — empty when no data was supplied, and also
when the internal storage is nil (a typed nil string map passed as data). -/
theorem C9_empty_message_and_extra (c : Int) (msg : String) (data : GoData) :
    (NewStatusError CodeNotFound "" GoData.null).Msg = (GetCodeDefinition CodeNotFound).message ∧
    (NewStatusError c msg data).Extra.isSome = true ∧
    (NewStatusError c msg GoData.null).Extra = some [] ∧
    (NewStatusError c msg (GoData.strMap none)).ext.extra = none ∧
    (NewStatusError c msg (GoData.strMap none)).Extra = some [] := by
  refine ⟨by decide, ?_, rfl, rfl, rfl⟩
  cases h : (NewStatusError c msg data).ext.extra <;> simp [statusError.Extra, h]

/-- One scan step on the business-info struct that ToGRPCStatus always
attaches last: it overrides code and message unconditionally. -/
theorem scanDetail_bizInfo (acc : Int × String × Option StrMap) (c : Int) (m : String) :
    scanDetail acc
      (Detail.pb [("business_code", PbValue.num c), ("business_msg", PbValue.str m)]) =
      (c, m, acc.2.2) := rfl

/-- The detail scan of a freshly encoded status ends on the business-info
struct, so it always recovers the encoded code and message. -/
theorem scanDetails_ToGRPC (e : statusError) :
    (scanDetails (ToGRPCStatus (some e))).1 = e.statusCode ∧
    (scanDetails (ToGRPCStatus (some e))).2.1 = e.message := by
  unfold scanDetails ToGRPCStatus
  rw [List.foldl_append]
  rw [List.foldl_cons, List.foldl_nil, scanDetail_bizInfo]
  exact ⟨rfl, rfl⟩

/-- The message NewStatusError stores is never empty when the code is one of
the five mapped codes (their registry defaults are non-empty). -/
theorem NewStatusError_msg_ne_empty (c : Int) (msg : String) (data : GoData)
    (hc : c = CodeInvalidParam ∨ c = CodeUnauthorized ∨ c = CodeForbidden ∨
      c = CodeNotFound ∨ c = CodeAlreadyExists) :
    (NewStatusError c msg data).message ≠ "" := by
  have hdef : GetMessage c "" ≠ "" := by
    rcases hc with rfl | rfl | rfl | rfl | rfl <;> decide
  by_cases hm : msg = "" <;> simp [NewStatusError, hm, hdef]

/-- The detail scan of a freshly encoded status, as one tuple equation. -/
theorem scanDetails_ToGRPC_eq (e : statusError) :
    scanDetails (ToGRPCStatus (some e)) =
      (e.statusCode, e.message, (scanDetails (ToGRPCStatus (some e))).2.2) := by
  have h1 := (scanDetails_ToGRPC e).1
  have h2 := (scanDetails_ToGRPC e).2
  rcases hsd : scanDetails (ToGRPCStatus (some e)) with ⟨a, b, x⟩
  rw [hsd] at h1 h2
  simp_all

/-- C1: round-trip of code and message through the codec for every status
error built with one of the five mapped codes. -/
theorem C1_roundtrip (c : Int) (msg : String) (data : GoData)
    (hc : c = CodeInvalidParam ∨ c = CodeUnauthorized ∨ c = CodeForbidden ∨
      c = CodeNotFound ∨ c = CodeAlreadyExists) :
    (FromGRPCStatus (ToGRPCStatus (some (NewStatusError c msg data)))).Code =
      (NewStatusError c msg data).Code ∧
    (FromGRPCStatus (ToGRPCStatus (some (NewStatusError c msg data)))).Msg =
      (NewStatusError c msg data).Msg := by
  have hcode : (NewStatusError c msg data).statusCode = c := rfl
  have hx := scanDetails_ToGRPC_eq (NewStatusError c msg data)
  rw [hcode] at hx
  have hne : c ≠ CodeInternalError := by
    rcases hc with rfl | rfl | rfl | rfl | rfl <;> decide
  have hmsg := NewStatusError_msg_ne_empty c msg data hc
  unfold FromGRPCStatus
  rw [hx]
  simp only [hne, if_false]
  constructor
  · rfl
  · show (NewStatusError c (NewStatusError c msg data).message _).Msg = _
    have hmsg' : (if msg = "" then GetMessage c "" else msg) ≠ "" := hmsg
    simp only [NewStatusError, statusError.Msg]
    rw [if_neg hmsg']

/-- C1 witness: the round-trip theorem applied at not-found with message "m"
and no data. -/
theorem C1_witness :
    (FromGRPCStatus (ToGRPCStatus (some (NewStatusError CodeNotFound "m" GoData.null)))).Code =
      (NewStatusError CodeNotFound "m" GoData.null).Code ∧
    (FromGRPCStatus (ToGRPCStatus (some (NewStatusError CodeNotFound "m" GoData.null)))).Msg =
      (NewStatusError CodeNotFound "m" GoData.null).Msg :=
  C1_roundtrip CodeNotFound "m" GoData.null (by decide)

/-- C2: for every status error whose code is outside the five mapped codes,
the encoded transport code is internal, yet decoding still recovers the
original business code (from the attached business-info detail; when that
code is itself internal-error the transport inference returns the same
value). -/
theorem C2_unmapped_codes (c : Int) (msg : String) (data : GoData)
    (hc : ¬(c = CodeInvalidParam ∨ c = CodeUnauthorized ∨ c = CodeForbidden ∨
      c = CodeNotFound ∨ c = CodeAlreadyExists)) :
    (ToGRPCStatus (some (NewStatusError c msg data))).code = GRPCCode.internal ∧
    (FromGRPCStatus (ToGRPCStatus (some (NewStatusError c msg data)))).Code =
      (NewStatusError c msg data).Code := by
  push_neg at hc
  obtain ⟨h1, h2, h3, h4, h5⟩ := hc
  have htrans : (ToGRPCStatus (some (NewStatusError c msg data))).code = GRPCCode.internal := by
    show codeToGRPCCode c = GRPCCode.internal
    simp [codeToGRPCCode, h1, h2, h3, h4, h5]
  refine ⟨htrans, ?_⟩
  have hcode : (NewStatusError c msg data).statusCode = c := rfl
  have hx := scanDetails_ToGRPC_eq (NewStatusError c msg data)
  rw [hcode] at hx
  unfold FromGRPCStatus
  rw [hx, htrans]
  by_cases hi : c = CodeInternalError
  · simp only [hi, if_true]
    rfl
  · simp only [hi, if_false]
    rfl

/-- C2 witness: the theorem applied at the business code user-not-found. -/
theorem C2_witness :
    (ToGRPCStatus (some (NewStatusError CodeUserNotFound "m" GoData.null))).code =
      GRPCCode.internal ∧
    (FromGRPCStatus (ToGRPCStatus (some (NewStatusError CodeUserNotFound "m" GoData.null)))).Code =
      (NewStatusError CodeUserNotFound "m" GoData.null).Code :=
  C2_unmapped_codes CodeUserNotFound "m" GoData.null (by decide)

/-- Whether one detail would trigger the business-code branch of the scan. -/
def detailHasBizCode : Detail → Bool
  | .undecodable => false
  | .pb s =>
    match pbLookup s "business_code" with
    | some (.num _) => true
    | _ => false

/-- A detail without a numeric business_code field never changes the scanned
code. -/
theorem scanDetail_code_no_biz (acc : Int × String × Option StrMap) (d : Detail)
    (h : detailHasBizCode d = false) : (scanDetail acc d).1 = acc.1 := by
  cases d with
  | undecodable => rfl
  | pb s =>
    unfold scanDetail
    rcases hl : pbLookup s "business_code" with _ | v
    · simp [hl]
    · cases v with
      | num n => simp [detailHasBizCode, hl] at h
      | str t => simp [hl]

/-- A scan over details none of which carries a business code leaves the
accumulated code unchanged. -/
theorem scan_code_no_biz (ds : List Detail)
    (h : ∀ d ∈ ds, detailHasBizCode d = false) :
    ∀ acc : Int × String × Option StrMap, (ds.foldl scanDetail acc).1 = acc.1 := by
  induction ds with
  | nil => intro acc; rfl
  | cons d t ih =>
    intro acc
    rw [List.foldl_cons]
    rw [ih (fun x hx => h x (List.mem_cons_of_mem d hx))]
    exact scanDetail_code_no_biz acc d (h d (List.mem_cons_self d t))

/-- C3 counterexample: a status whose transport code is not-found and whose
single attachment carries business_code = internal-error decodes to
not-found (1004), not to the attachment's business code (1006) — the
inverse table is consulted even though an attachment supplied a code. -/
theorem C3_counterexample :
    detailHasBizCode
      (Detail.pb [("business_code", PbValue.num CodeInternalError),
        ("business_msg", PbValue.str "x")]) = true ∧
    (FromGRPCStatus
      ⟨GRPCCode.notFound, "m",
        [Detail.pb [("business_code", PbValue.num CodeInternalError),
          ("business_msg", PbValue.str "x")]]⟩).Code = CodeNotFound ∧
    CodeNotFound ≠ CodeInternalError := by
  refine ⟨rfl, rfl, by decide⟩

/-- C3 (amended): the decoded code is the scanned business code whenever that
code differs from internal-error; when the scan ends at internal-error
(because no attachment supplied a code, or the supplied code was itself
internal-error) the transport-code inverse table applies; and when no
attachment carries a business code and the transport code is outside the
five-entry table, the decoded code is internal-error. -/
theorem C3_detail_precedence (st : GRPCStatus) :
    ((scanDetails st).1 ≠ CodeInternalError →
      (FromGRPCStatus st).Code = (scanDetails st).1) ∧
    ((scanDetails st).1 = CodeInternalError →
      (FromGRPCStatus st).Code = grpcCodeToCode st.code) ∧
    ((∀ d ∈ st.details, detailHasBizCode d = false) →
      st.code ≠ GRPCCode.invalidArgument → st.code ≠ GRPCCode.unauthenticated →
      st.code ≠ GRPCCode.permissionDenied → st.code ≠ GRPCCode.notFound →
      st.code ≠ GRPCCode.alreadyExists →
      (FromGRPCStatus st).Code = CodeInternalError) := by
  refine ⟨?_, ?_, ?_⟩
  · intro h
    unfold FromGRPCStatus
    simp only [h, if_false]
    rfl
  · intro h
    unfold FromGRPCStatus
    simp only [h, if_true]
    rfl
  · intro hno h1 h2 h3 h4 h5
    have hscan : (scanDetails st).1 = CodeInternalError := scan_code_no_biz st.details hno _
    unfold FromGRPCStatus
    simp only [hscan, if_true]
    have : grpcCodeToCode st.code = CodeInternalError := by
      cases hc : st.code <;> simp_all [grpcCodeToCode]
    rw [show (NewStatusError (grpcCodeToCode st.code) (scanDetails st).2.1
      (GoData.strMap (scanDetails st).2.2)).Code = grpcCodeToCode st.code from rfl, this]

/-- C3 witness: the amended theorem applied at a status with an unmapped
transport code and one metadata-only attachment. -/
theorem C3_witness :
    (FromGRPCStatus ⟨GRPCCode.unavailable, "m",
      [Detail.pb [("k", PbValue.str "v")]]⟩).Code = CodeInternalError :=
  (C3_detail_precedence ⟨GRPCCode.unavailable, "m",
      [Detail.pb [("k", PbValue.str "v")]]⟩).2.2
    (by decide) (by decide) (by decide) (by decide) (by decide) (by decide)

/-- WithStack on a non-nil input always yields a withStatus wrapper. -/
theorem WithStack_some_shape (stk : String) (e : ErrVal) :
    ∃ s st c, WithStack stk (some e) = some (.withS s st c) := by
  unfold WithStack
  rcases h1 : findWithStatus e with _ | ⟨s, st, c⟩
  · rcases h2 : findStatusError e with _ | se
    · exact ⟨⟨e.Code, e.Msg, ⟨e.IsAffectStability, e.ExtraMap⟩⟩, stk, some e, by simp [h1, h2]⟩
    · exact ⟨se, stk, none, by simp [h1, h2]⟩
  · exact ⟨s, st, c, by simp [h1]⟩

/-- C6: WithStack is idempotent — re-wrapping the wrapper returned by a first
WithStack returns that very wrapper value, never a nested one, whatever
stacks the two call sites capture. -/
theorem C6_withStack_idempotent (e : ErrVal) (st1 st2 : String)
    (_h : e.isStatusError = true) :
    WithStack st2 (WithStack st1 (some e)) = WithStack st1 (some e) := by
  obtain ⟨s, stk, c, hw⟩ := WithStack_some_shape st1 e
  rw [hw]
  rfl

/-- C6 witness: the idempotence theorem applied to a bare status error with
two distinct capture sites. -/
theorem C6_witness :
    ErrVal.isStatusError (ErrVal.statusE (NewStatusError CodeNotFound "m" GoData.null)) = true ∧
    WithStack "b" (WithStack "a" (some (ErrVal.statusE (NewStatusError CodeNotFound "m" GoData.null)))) =
      WithStack "a" (some (ErrVal.statusE (NewStatusError CodeNotFound "m" GoData.null))) :=
  ⟨rfl, C6_withStack_idempotent (ErrVal.statusE (NewStatusError CodeNotFound "m" GoData.null)) "a" "b" rfl⟩

/-- C10: WithStack on a foreign StatusError implementation (neither internal
type anywhere in its unwrap chain) copies code, message, stability flag and
metadata into a fresh wrapper whose cause is the original error, which both
Cause and Unwrap return. -/
theorem C10_duck_typed_wrap (code : Int) (msg : String) (aff : Bool)
    (x : Option StrMap) (w : Option ErrVal) (stk : String)
    (h1 : findWithStatus (.custom code msg aff x w) = none)
    (h2 : findStatusError (.custom code msg aff x w) = none) :
    WithStack stk (some (.custom code msg aff x w)) =
      some (.withS ⟨code, msg, ⟨aff, x⟩⟩ stk (some (.custom code msg aff x w))) ∧
    ErrVal.CauseOf (.withS ⟨code, msg, ⟨aff, x⟩⟩ stk (some (.custom code msg aff x w))) =
      some (.custom code msg aff x w) ∧
    ErrVal.UnwrapCause (.withS ⟨code, msg, ⟨aff, x⟩⟩ stk (some (.custom code msg aff x w))) =
      some (.custom code msg aff x w) := by
  refine ⟨?_, rfl, rfl⟩
  simp [WithStack, h1, h2, ErrVal.Code, ErrVal.Msg, ErrVal.IsAffectStability, ErrVal.ExtraMap]

/-- C10 witness: the theorem applied to a concrete chain-free foreign
implementation. -/
theorem C10_witness :
    WithStack "s" (some (.custom 7 "m" true (some [("k", "v")]) none)) =
      some (.withS ⟨7, "m", ⟨true, some [("k", "v")]⟩⟩ "s"
        (some (.custom 7 "m" true (some [("k", "v")]) none))) ∧
    ErrVal.CauseOf (.withS ⟨7, "m", ⟨true, some [("k", "v")]⟩⟩ "s"
        (some (.custom 7 "m" true (some [("k", "v")]) none))) =
      some (.custom 7 "m" true (some [("k", "v")]) none) ∧
    ErrVal.UnwrapCause (.withS ⟨7, "m", ⟨true, some [("k", "v")]⟩⟩ "s"
        (some (.custom 7 "m" true (some [("k", "v")]) none))) =
      some (.custom 7 "m" true (some [("k", "v")]) none) :=
  C10_duck_typed_wrap 7 "m" true (some [("k", "v")]) none "s" rfl rfl

/-- Neither kind of Option ever touches the status code of the wrapped
statusError. -/
theorem applyOption_code (ws : statusError × String × Option ErrVal) (o : ErrOption) :
    ((applyOption ws o).1).statusCode = ws.1.statusCode := by
  cases o <;> rfl

/-- A whole Options chain leaves the status code unchanged. -/
theorem foldl_applyOption_code (opts : List ErrOption) :
    ∀ ws : statusError × String × Option ErrVal,
      ((opts.foldl applyOption ws).1).statusCode = ws.1.statusCode := by
  induction opts with
  | nil => intro ws; rfl
  | cons o t ih =>
    intro ws
    rw [List.foldl_cons, ih, applyOption_code]

/-- The metadata stored inside an error value (the raw field, before the
Extra method copies it). -/
def ErrVal.storedMeta : ErrVal → Option StrMap
  | .withS s _ _ => s.ext.extra
  | .statusE s => s.ext.extra
  | .custom _ _ _ x _ => x
  | .plain _ _ => none

/-- C8: Param substitutes every occurrence of the placeholder in the message
(concretely, "user \x7bname\x7d not found" becomes "user zampo not found",
and a message with two occurrences has both replaced); two Extra options
with distinct keys leave both entries in the final metadata exactly as
given; and no chain of options ever changes the error's code. -/
theorem C8_options (k1 k2 v1 v2 m : String) (c : Int) (stk : String)
    (opts : List ErrOption) (hne : k1 ≠ k2) :
    (NewWithStatus stk CodeNotFound "user \x7bname\x7d not found"
      [ErrOption.param "name" "zampo"]).Msg = "user zampo not found" ∧
    (NewWithStatus stk CodeNotFound "\x7bname\x7d=\x7bname\x7d"
      [ErrOption.param "name" "z"]).Msg = "z=z" ∧
    mapGet ((NewWithStatus stk c m
      [ErrOption.extra k1 v1, ErrOption.extra k2 v2]).storedMeta.getD []) k1 = some v1 ∧
    mapGet ((NewWithStatus stk c m
      [ErrOption.extra k1 v1, ErrOption.extra k2 v2]).storedMeta.getD []) k2 = some v2 ∧
    (NewWithStatus stk c m opts).Code = c := by
  have hb : (k1 == k2) = false := beq_eq_false_iff_ne.mpr hne
  have hb' : (k2 == k1) = false := beq_eq_false_iff_ne.mpr (Ne.symm hne)
  refine ⟨rfl, rfl, ?_, ?_, ?_⟩
  · simp [NewWithStatus, applyOption, ErrVal.storedMeta, mapInsert, mapGet,
      List.find?, hb, hb']
  · simp [NewWithStatus, applyOption, ErrVal.storedMeta, mapInsert, mapGet,
      List.find?, hb, hb']
  · show ((opts.foldl applyOption _).1).statusCode = c
    rw [foldl_applyOption_code]

/-- C8 witness: the options theorem applied at concrete keys, values,
message, code, stack and a one-option chain. -/
theorem C8_witness :
    (NewWithStatus "s" CodeNotFound "user \x7bname\x7d not found"
      [ErrOption.param "name" "zampo"]).Msg = "user zampo not found" ∧
    (NewWithStatus "s" CodeNotFound "\x7bname\x7d=\x7bname\x7d"
      [ErrOption.param "name" "z"]).Msg = "z=z" ∧
    mapGet ((NewWithStatus "s" 5 "m"
      [ErrOption.extra "k1" "v1", ErrOption.extra "k2" "v2"]).storedMeta.getD []) "k1" =
      some "v1" ∧
    mapGet ((NewWithStatus "s" 5 "m"
      [ErrOption.extra "k1" "v1", ErrOption.extra "k2" "v2"]).storedMeta.getD []) "k2" =
      some "v2" ∧
    (NewWithStatus "s" 5 "m" [ErrOption.param "a" "b"]).Code = 5 :=
  C8_options "k1" "k2" "v1" "v2" "m" 5 "s" [ErrOption.param "a" "b"] (by decide)

/-- C5 counterexample: a stack-wrapped error produced by WithStack from a
status error holding a nil metadata map (built by passing a typed nil
string map as data).  Its Extra method returns the empty map with no
"stack" entry at all, although the captured stack "frame" is non-empty. -/
theorem C5_counterexample :
    WithStack "frame"
        (some (ErrVal.statusE (NewStatusError CodeNotFound "m" (GoData.strMap none)))) =
      some (ErrVal.withS (NewStatusError CodeNotFound "m" (GoData.strMap none)) "frame" none) ∧
    withStatusExtra (NewStatusError CodeNotFound "m" (GoData.strMap none)) "frame" = some [] ∧
    mapGet [] "stack" = none ∧
    "frame" ≠ "" :=
  ⟨rfl, rfl, rfl, by decide⟩

/-- C5 (amended): when the wrapper's stored metadata map is non-nil and the
captured stack is non-empty, the map Extra returns carries the "stack"
entry with that non-empty stack; and in every case the returned map is a
defensive copy — writing to it leaves the stored metadata untouched and a
subsequent Extra call returns the same contents as the first. -/
theorem C5_extra_defensive_copy (h : Heap) (w : withStatusH) (m' : StrMap)
    (hv : ∀ r, w.extraRef = some r → r < h.store.length) :
    (∀ r, w.extraRef = some r → w.stack ≠ "" →
      mapGet ((withStatusExtraH h w).1.get (withStatusExtraH h w).2) "stack" =
        some w.stack) ∧
    (∀ r, w.extraRef = some r →
      Heap.get (Heap.set (withStatusExtraH h w).1 (withStatusExtraH h w).2 m') r =
        Heap.get h r) ∧
    (withStatusExtraH (Heap.set (withStatusExtraH h w).1 (withStatusExtraH h w).2 m') w).1.get
        (withStatusExtraH (Heap.set (withStatusExtraH h w).1 (withStatusExtraH h w).2 m') w).2 =
      (withStatusExtraH h w).1.get (withStatusExtraH h w).2 := by
  obtain ⟨xr, stk⟩ := w
  rcases xr with _ | r
  · refine ⟨?_, ?_, ?_⟩
    · intro r hr; cases hr
    · intro r hr; cases hr
    · simp only [withStatusExtraH, Heap.alloc, Heap.set, Heap.get]
      rw [List.getElem?_concat_length, List.getElem?_concat_length]
  · have hlt : r < h.store.length := hv r rfl
    have hne : h.store.length ≠ r := by omega
    refine ⟨?_, ?_, ?_⟩
    · intro r' hr' hs
      cases hr'
      simp only [withStatusExtraH, Heap.alloc, Heap.get]
      rw [List.getElem?_concat_length]
      simp only [Option.getD_some]
      rw [if_neg hs]
      exact mapGet_mapInsert_self _ "stack" stk
    · intro r' hr'
      cases hr'
      simp only [withStatusExtraH, Heap.alloc, Heap.set, Heap.get]
      rw [List.getElem?_set_ne hne, List.getElem?_append_left hlt]
    · simp only [withStatusExtraH, Heap.alloc, Heap.set, Heap.get]
      rw [List.getElem?_set_ne hne, List.getElem?_append_left hlt]
      rw [List.getElem?_concat_length, List.getElem?_concat_length]

/-- C5 witness: the amended theorem applied at a one-map heap, a wrapper
referencing it with stack "S", and an arbitrary mutation. -/
theorem C5_witness :
    mapGet ((withStatusExtraH ⟨[[("a", "b")]]⟩ ⟨some 0, "S"⟩).1.get
      (withStatusExtraH ⟨[[("a", "b")]]⟩ ⟨some 0, "S"⟩).2) "stack" = some "S" :=
  (C5_extra_defensive_copy ⟨[[("a", "b")]]⟩ ⟨some 0, "S"⟩ [("x", "y")]
      (by intro r hr; cases hr; decide)).1 0 rfl (by decide)
